import Mathlib

/-!
Verification development for the gengo repository: a unification layer over
generative-AI vendor chat APIs.  Go strings are modelled as lists of
characters, Go `int`/`int32`/`int64` values as `Int` (all arithmetic in the
modelled code stays far from the overflow boundaries), Go `float64`/`float32`
values as exact rationals `ℚ`, and fallible Go functions as `Option`/`Except`
returning functions.  Each definition is a shallow embedding of the
correspondingly named Go function.
-/

set_option maxHeartbeats 1000000

namespace Gengo

/-- Go strings modelled as lists of characters. -/
abbrev GoStr := List Char

/-- Model of Go `strings.Split(s, sep)` (auxiliary worker).  The `Nat`
argument counts separator characters that remain to be skipped after a
separator match.  For a nonempty `sep`, `goSplitAux sep s 0` splits `s`
around each leftmost, non-overlapping instance of `sep`, exactly as
Go's `strings.Split` does. -/
def goSplitAux (sep : List Char) : List Char → Nat → List (List Char)
  | [], _ => [[]]
  | _ :: cs, k+1 => goSplitAux sep cs k
  | c :: cs, 0 =>
    if sep.isPrefixOf (c :: cs) then
      [] :: goSplitAux sep cs (sep.length - 1)
    else
      match goSplitAux sep cs 0 with
      | [] => [[c]]
      | h :: t => (c :: h) :: t

/-- Model of Go `strings.Split(s, sep)` for nonempty `sep`.  (Go splits
after each UTF-8 sequence when `sep` is empty; that case is never used in
this repository, and the model simply returns `[s]` there.) -/
def goSplit (sep s : List Char) : List (List Char) :=
  if sep.isEmpty then [s] else goSplitAux sep s 0

/-- Model of Go `strings.Contains(s, sub)` (true when `sub` occurs as a
substring of `s`; the empty substring is contained in every string). -/
def containsSub (sub : List Char) : List Char → Bool
  | [] => sub.isEmpty
  | c :: cs => sub.isPrefixOf (c :: cs) || containsSub sub cs

/-- Model of Go `strings.TrimPrefix(s, pre)`: removes `pre` from the front
of `s` when present, otherwise returns `s` unchanged. -/
def goTrimPrefix (pre s : GoStr) : GoStr :=
  if pre.isPrefixOf s then s.drop pre.length else s

/-- The literal separator `";base64,"` used by the data-URL codec
(chat/dataurl.go). -/
def bsep : List Char := [';', 'b', 'a', 's', 'e', '6', '4', ',']

/-- The literal prefix `"data:"` used by the data-URL codec
(chat/dataurl.go). -/
def dataColon : List Char := ['d', 'a', 't', 'a', ':']

/-- The standard base64 alphabet used by Go `encoding/base64.StdEncoding`. -/
def b64alphabet : List Char :=
  "ABCDEFGHIJKLMNOPQRSTUVWXYZabcdefghijklmnopqrstuvwxyz0123456789+/".toList

/-- Character of the standard base64 alphabet at a sextet value (all call
sites pass values below 64, where the default is never used). -/
def b64chr (n : Nat) : Char := b64alphabet.getD n 'A'

/-- Worker for `b64val`: index of a character in a list, counting from
`i`. -/
def b64valAux : List Char → Nat → Char → Option Nat
  | [], _, _ => none
  | a :: as, i, c => if a = c then some i else b64valAux as (i + 1) c

/-- Sextet value of a base64 alphabet character (the reverse table of Go
`encoding/base64.StdEncoding`); `none` for characters outside the
alphabet, in particular for `'='`. -/
def b64val (c : Char) : Option Nat := b64valAux b64alphabet 0 c

/-- Model of Go `base64.StdEncoding.EncodeToString` on byte lists (bytes as
naturals below 256): each group of three bytes becomes four alphabet
characters, and a trailing group of one or two bytes is padded with
`'='`. -/
def base64Encode : List Nat → List Char
  | [] => []
  | [b0] => [b64chr (b0 / 4), b64chr (b0 % 4 * 16), '=', '=']
  | [b0, b1] =>
      [b64chr (b0 / 4), b64chr (b0 % 4 * 16 + b1 / 16), b64chr (b1 % 16 * 4), '=']
  | b0 :: b1 :: b2 :: rest =>
      b64chr (b0 / 4) :: b64chr (b0 % 4 * 16 + b1 / 16) ::
        b64chr (b1 % 16 * 4 + b2 / 64) :: b64chr (b2 % 64) :: base64Encode rest

/-- Model of the four-character-group loop of Go
`base64.StdEncoding.Decode`: the input length must be a multiple of four,
`'='` padding is accepted only at the end of the final group, and each full
group contributes three bytes. -/
def base64DecodeGroups : List Char → Option (List Nat)
  | [] => some []
  | c0 :: c1 :: c2 :: c3 :: rest =>
    match b64val c0, b64val c1 with
    | some v0, some v1 =>
      if c2 = '=' ∧ c3 = '=' ∧ rest = [] then
        some [v0 * 4 + v1 / 16]
      else if c3 = '=' ∧ rest = [] then
        match b64val c2 with
        | some v2 => some [v0 * 4 + v1 / 16, v1 % 16 * 16 + v2 / 4]
        | none => none
      else
        match b64val c2, b64val c3 with
        | some v2, some v3 =>
          match base64DecodeGroups rest with
          | some bs =>
              some ((v0 * 4 + v1 / 16) :: (v1 % 16 * 16 + v2 / 4) ::
                (v2 % 4 * 64 + v3) :: bs)
          | none => none
        | _, _ => none
    | _, _ => none
  | _ => none

/-- Model of Go `base64.StdEncoding.DecodeString`: carriage returns and
newlines are ignored, then the input is consumed in four-character
groups. -/
def base64Decode (s : List Char) : Option (List Nat) :=
  base64DecodeGroups (s.filter (fun c => c != '\r' && c != '\n'))

/-- Model of `chat.EncodeDataURL` (chat/dataurl.go):
`"data:" + mimeType + ";base64," + base64(data)`. -/
def EncodeDataURL (mimeType : GoStr) (data : List Nat) : GoStr :=
  dataColon ++ mimeType ++ bsep ++ base64Encode data

/-- Model of `chat.DecodeDataURL` (chat/dataurl.go): split on `";base64,"`,
demand exactly two parts, demand the leading `"data:"`, base64-decode the
payload, and return the decoded bytes with the MIME type (the first part
with `"data:"` trimmed). -/
def DecodeDataURL (dataURL : GoStr) : Option (List Nat × GoStr) :=
  match goSplit bsep dataURL with
  | [p0, p1] =>
    if dataColon.isPrefixOf p0 then
      match base64Decode p1 with
      | some data => some (data, goTrimPrefix dataColon p0)
      | none => none
    else none
  | _ => none

/-- Model of `chat.IsDataURL` (chat/dataurl.go): a cheap structural check,
`strings.HasPrefix(s, "data:") && strings.Contains(s, ";base64,")`. -/
def IsDataURL (s : GoStr) : Bool :=
  dataColon.isPrefixOf s && containsSub bsep s

/-- Model of `chat.SplitDataURL` (chat/dataurl.go): reject non-data-URLs,
then split `strings.TrimPrefix(s, "data:")` on `";base64,"` and demand
exactly two parts, returned as (MIME type, still-encoded payload). -/
def SplitDataURL (s : GoStr) : Option (GoStr × GoStr) :=
  if IsDataURL s then
    match goSplit bsep (goTrimPrefix dataColon s) with
    | [p0, p1] => some (p0, p1)
    | _ => none
  else none

/-- Number of occurrences of `sub` as a substring of `s` (count of start
positions where `sub` matches), written from the C10 claim's wording. -/
def specNumOcc (sub : List Char) : List Char → Nat
  | [] => 0
  | c :: cs => (if sub.isPrefixOf (c :: cs) then 1 else 0) + specNumOcc sub cs

/-- Model of `chat.ModelInfo` (chat/modelcatalog.go).  Per-token costs are
Go `float64` values, modelled as exact rationals. -/
structure ModelInfo where
  model : GoStr
  provider : GoStr
  maxTokens : Int := 0
  maxInputTokens : Int := 0
  maxOutputTokens : Int := 0
  inputTokenCost : ℚ := 0
  outputTokenCost : ℚ := 0
  cacheCreationTokenCost : ℚ := 0
  cacheReadTokenCost : ℚ := 0
  supportsWebSearch : Bool := false
  supportsVision : Bool := false
  supportsPDFInput : Bool := false
deriving DecidableEq

/-- Model of `chat.ModelCatalog`: an ordered list of entries. -/
abbrev ModelCatalog := List ModelInfo

/-- Model of `chat.ModelCatalog.GetModel` (chat/modelcatalog.go).  One pass
over the catalog; for each entry, an exact match on the stored identifier is
tried first, then, when `strings.Split(info.Model, "/")` has more than one
component, component 1 (the segment between the first and second slash) is
compared against the query. -/
def getModel : ModelCatalog → GoStr → Option ModelInfo
  | [], _ => none
  | info :: rest, model =>
    if info.model = model then some info
    else
      match goSplit ['/'] info.model with
      | _ :: cmp1 :: _ =>
        if cmp1 = model then some info else getModel rest model
      | _ => getModel rest model

/-- Model of `chat.Usage` (chat/chat.go).  Token counts are Go `int`
values; the derived cost is a Go `float64`, modelled as an exact rational. -/
structure Usage where
  inputTokens : Int := 0
  outputTokens : Int := 0
  reasoningTokens : Int := 0
  cacheCreationTokens : Int := 0
  cachedTokens : Int := 0
  totalTokens : Int := 0
  cost : ℚ := 0
deriving DecidableEq

/-- Model of the unexported helper `calculateCost` (chat/modelcatalog.go):
input tokens times input token cost plus output tokens times output token
cost. -/
def calculateCost (model : ModelInfo) (usage : Usage) : ℚ :=
  0 + model.inputTokenCost * (usage.inputTokens : ℚ)
    + model.outputTokenCost * (usage.outputTokens : ℚ)

/-- Model of `chat.ModelCatalog.CalculateCost` (chat/modelcatalog.go).  The
Go method mutates `usage` in place and reports whether the model was found;
the model returns the flag together with the resulting usage record. -/
def CalculateCost (c : ModelCatalog) (model : GoStr) (usage : Usage) :
    Bool × Usage :=
  match getModel c model with
  | some m => (true, { usage with cost := calculateCost m usage })
  | none => (false, usage)

/-- Predicate written from the amended C4 wording: an entry matches a query
when the stored identifier equals the query exactly, or when the segment of
the stored identifier between the first and second `/` equals the query. -/
def entryMatches (query : GoStr) (info : ModelInfo) : Bool :=
  info.model == query ||
    match goSplit ['/'] info.model with
    | _ :: cmp1 :: _ => cmp1 == query
    | _ => false

/-- Catalog used by the C4 counterexample: a namespaced entry precedes an
entry whose identifier equals the query exactly. -/
def c4cat : ModelCatalog :=
  [{ model := "p/q".toList, provider := "A".toList },
   { model := "q".toList, provider := "B".toList }]

/-- Catalog entry used by the C5 witness, with the costs from the spec's
worked example (`1.5e-7` and `6e-7` per token). -/
def c5info : ModelInfo :=
  { model := "m".toList, provider := "openai".toList,
    inputTokenCost := 3 / 20000000, outputTokenCost := 3 / 5000000 }

/-- Go error values modelled as strings (the message text). -/
abbrev GoErr := GoStr

/-- Model of `chat.ContentPart` (chat/chat.go). -/
structure ContentPart where
  type : GoStr := []
  text : GoStr := []
  dataURL : GoStr := []
deriving DecidableEq

/-- Model of `chat.ToolCall` (chat/chat.go). -/
structure ToolCall where
  id : GoStr := []
  name : GoStr := []
  arguments : GoStr := []
deriving DecidableEq

/-- Model of `chat.ToolResponse` (chat/chat.go). -/
structure ToolResponse where
  id : GoStr := []
  name : GoStr := []
  result : GoStr := []
deriving DecidableEq

/-- Model of `chat.Message` (chat/chat.go).  Roles are the Go string
values `"system"`, `"ai"`, `"human"`, `"tool"`. -/
structure Message where
  type : GoStr := []
  role : GoStr := []
  content : List ContentPart := []
  toolCall : Option ToolCall := none
  toolResponse : Option ToolResponse := none
deriving DecidableEq

/-- Model of `chat.Message.IsToolCall`. -/
def Message.IsToolCall (m : Message) : Bool :=
  m.toolCall.isSome && m.role == "ai".toList

/-- Model of `chat.Message.IsToolResponse`. -/
def Message.IsToolResponse (m : Message) : Bool :=
  m.toolResponse.isSome && m.role == "tool".toList

/-- Model of `chat.NewTextMessage` (chat/chat.go). -/
def NewTextMessage (role : GoStr) (text : GoStr) : Message :=
  { role := role, content := [{ type := "text".toList, text := text }] }

/-- Model of `chat.Tool` (chat/chat.go); the input JSON schema is kept as
an opaque string payload. -/
structure Tool where
  name : GoStr := []
  description : GoStr := []
  inputSchema : GoStr := []
deriving DecidableEq

/-- Model of `chat.ModelConfig` (chat/chat.go); float32 fields as exact
rationals, the int32 field as `Int`. -/
structure ModelConfig where
  maxTokens : Int := 0
  temperature : ℚ := 0
  topP : ℚ := 0
  presencePenalty : ℚ := 0
  frequencyPenalty : ℚ := 0
  stopWords : List GoStr := []
deriving DecidableEq

/-- Model of `chat.Request` (chat/chat.go).  The free-form metadata map is
omitted (no embedded operation reads it); the response schema JSON is kept
as an opaque optional string payload. -/
structure Request where
  model : GoStr := []
  config : ModelConfig := {}
  messages : List Message := []
  tools : List Tool := []
  mustCallTool : Bool := false
  responseType : GoStr := []
  responseSchema : Option GoStr := none
deriving DecidableEq

/-- Model of `chat.Response` (chat/chat.go); metadata omitted (never set
by the embedded paths).  The finish reason is a Go string value. -/
structure Response where
  model : GoStr := []
  finishReason : GoStr := []
  messages : List Message := []
  usage : Option Usage := none
deriving DecidableEq

/-- Model of `chat.StreamResponse` (chat/chat.go). -/
structure StreamResponse where
  type : GoStr := []
  content : GoStr := []
deriving DecidableEq

/-- A text chunk as built at each streaming call site:
`chat.StreamResponse{Type: "text", Content: t}`. -/
def mkTextChunk (t : GoStr) : StreamResponse :=
  { type := "text".toList, content := t }

/-- Model of `chat.Streamer` (`func(resp *StreamResponse) error`): `none`
models a nil error (success), `some e` a callback failure. -/
abbrev Streamer := StreamResponse → Option GoErr

/-- Constant `chat.FinishReasonStop`. -/
def FinishReasonStop : GoStr := "stop".toList

/-- Constant `chat.FinishReasonMaxTokens`. -/
def FinishReasonMaxTokens : GoStr := "max_tokens".toList

/-- Constant `chat.FinishReasonToolUse`. -/
def FinishReasonToolUse : GoStr := "tool_use".toList

/-- Constant `chat.FinishReasonSafety`. -/
def FinishReasonSafety : GoStr := "safety".toList

/-- Constant `chat.FinishReasonError`. -/
def FinishReasonError : GoStr := "error".toList

/-- Constant `chat.FinishReasonUnknown`. -/
def FinishReasonUnknown : GoStr := "unknown".toList

/-- Model of `anthropic.convertFinishReason` (anthropic/generate.go).
Vendor values from the anthropic-sdk-go `MessageStopReason` string
constants: `end_turn`, `stop_sequence`, `max_tokens`, `tool_use`. -/
def anthropicConvertFinishReason (reason : GoStr) : GoStr :=
  if reason = "end_turn".toList ∨ reason = "stop_sequence".toList then
    FinishReasonStop
  else if reason = "max_tokens".toList then FinishReasonMaxTokens
  else if reason = "tool_use".toList then FinishReasonToolUse
  else FinishReasonUnknown

/-- Model of `openai.convertFinishReason` (openai/generate.go).  Vendor
values from the go-openai `FinishReason` string constants. -/
def openaiConvertFinishReason (reason : GoStr) : GoStr :=
  if reason = "stop".toList then FinishReasonStop
  else if reason = "length".toList then FinishReasonMaxTokens
  else if reason = "function_call".toList ∨ reason = "tool_calls".toList then
    FinishReasonToolUse
  else if reason = "content_filter".toList then FinishReasonSafety
  else if reason = "null".toList then FinishReasonUnknown
  else FinishReasonUnknown

/-- Model of `google.convertFinishReason` (google/generate.go).  Vendor
values from the google.golang.org/genai `FinishReason` string constants. -/
def googleConvertFinishReason (reason : GoStr) : GoStr :=
  if reason = "STOP".toList then FinishReasonStop
  else if reason = "MAX_TOKENS".toList then FinishReasonMaxTokens
  else if reason = "SAFETY".toList ∨ reason = "IMAGE_SAFETY".toList ∨
      reason = "PROHIBITED_CONTENT".toList ∨ reason = "RECITATION".toList ∨
      reason = "BLOCKLIST".toList ∨ reason = "SPII".toList then
    FinishReasonSafety
  else if reason = "MALFORMED_FUNCTION_CALL".toList then FinishReasonError
  else if reason = "OTHER".toList ∨
      reason = "FINISH_REASON_UNSPECIFIED".toList then
    FinishReasonUnknown
  else FinishReasonUnknown

/-- Events of an anthropic message stream as read by
`anthropic.handleStreaming`: content-block-delta events with a text delta,
content-block-delta events with any other delta kind, message-start events
(carrying the input token count), message-delta events (carrying an output
token count); every other event variant is collapsed into `other`, which
the loop ignores. -/
inductive AnthropicEvent where
  | contentBlockDeltaText (text : GoStr)
  | contentBlockDeltaOther
  | messageStart (inputTokens : Int)
  | messageDelta (outputTokens : Int)
  | other
deriving DecidableEq

/-- Loop body of `anthropic.handleStreaming` over the delivered events,
threading the accumulated content and usage; the second component collects
the chunks passed to the streamer, in order. -/
def anthropicLoop (streamer : Streamer) :
    List AnthropicEvent → GoStr → Usage →
      Except GoErr (GoStr × Usage) × List StreamResponse
  | [], content, usage => (.ok (content, usage), [])
  | e :: es, content, usage =>
    match e with
    | .contentBlockDeltaText t =>
      match streamer (mkTextChunk t) with
      | some err => (.error ("stream: ".toList ++ err), [mkTextChunk t])
      | none =>
        let r := anthropicLoop streamer es (content ++ t) usage
        (r.1, mkTextChunk t :: r.2)
    | .contentBlockDeltaOther => anthropicLoop streamer es content usage
    | .messageStart it =>
      anthropicLoop streamer es content { usage with inputTokens := it }
    | .messageDelta ot =>
      anthropicLoop streamer es content
        { usage with outputTokens := usage.outputTokens + ot }
    | .other => anthropicLoop streamer es content usage

/-- Model of `anthropic.handleStreaming` (anthropic/generate.go): consume
the delivered events in order (content accumulation before the streamer
call, early return on streamer failure), then check the stream's terminal
error, and on success return the aggregated response with finish reason
`"stop"` and total tokens set.  The vendor stream is represented by the
events it yields before terminating plus its terminal error (`none` for
clean exhaustion); context cancellation surfaces as a terminal error. -/
def handleStreaming (streamer : Streamer) (events : List AnthropicEvent)
    (streamErr : Option GoErr) :
    Except GoErr Response × List StreamResponse :=
  match anthropicLoop streamer events [] {} with
  | (.error e, sent) => (.error e, sent)
  | (.ok (content, usage), sent) =>
    match streamErr with
    | some e => (.error e, sent)
    | none =>
      (.ok { messages := [NewTextMessage ("ai".toList) content],
             finishReason := "stop".toList,
             usage := some { usage with
               totalTokens := usage.inputTokens + usage.outputTokens } },
       sent)

/-- Usage payload of an openai stream chunk, as read by
`openai.chatUsage`. -/
structure OpenAIUsage where
  promptTokens : Int := 0
  completionTokens : Int := 0
  totalTokens : Int := 0
deriving DecidableEq

/-- Model of `openai.chatUsage` (openai/generate.go). -/
def chatUsage (u : OpenAIUsage) : Usage :=
  { inputTokens := u.promptTokens, outputTokens := u.completionTokens,
    totalTokens := u.totalTokens }

/-- Choice of an openai stream chunk (only the delta content is read). -/
structure OpenAIChoice where
  deltaContent : GoStr := []
deriving DecidableEq

/-- Chunk of the openai chat-completion stream as read by
`openai.chatCompletionStream`: an optional usage payload and the list of
choices. -/
structure OpenAIChunk where
  usage : Option OpenAIUsage := none
  choices : List OpenAIChoice := []
deriving DecidableEq

/-- Loop body of `openai.chatCompletionStream` over received chunks: a
usage payload replaces the accumulator, chunks without choices are
skipped, and a nonempty first-choice delta is appended and streamed. -/
def openaiLoop (streamer : Streamer) :
    List OpenAIChunk → GoStr → Usage →
      Except GoErr (GoStr × Usage) × List StreamResponse
  | [], content, usage => (.ok (content, usage), [])
  | ch :: rest, content, usage =>
    let usage1 := match ch.usage with
      | some u => chatUsage u
      | none => usage
    match ch.choices with
    | [] => openaiLoop streamer rest content usage1
    | choice :: _ =>
      if choice.deltaContent = [] then openaiLoop streamer rest content usage1
      else
        match streamer (mkTextChunk choice.deltaContent) with
        | some err =>
          (.error ("stream: ".toList ++ err), [mkTextChunk choice.deltaContent])
        | none =>
          let r := openaiLoop streamer rest (content ++ choice.deltaContent) usage1
          (r.1, mkTextChunk choice.deltaContent :: r.2)

/-- Model of `openai.chatCompletionStream` (openai/generate.go): receive
chunks until the stream terminates; `recvErr = none` models `io.EOF`
(clean termination), `some e` any other receive error.  On clean
exhaustion the aggregated response carries finish reason `"stop"` and the
last usage payload seen.  Context cancellation surfaces as a terminal
error. -/
def chatCompletionStream (streamer : Streamer) (rModel : GoStr)
    (chunks : List OpenAIChunk) (recvErr : Option GoErr) :
    Except GoErr Response × List StreamResponse :=
  match openaiLoop streamer chunks [] {} with
  | (.error e, sent) => (.error e, sent)
  | (.ok (content, usage), sent) =>
    match recvErr with
    | some e => (.error ("chat completion stream recv: ".toList ++ e), sent)
    | none =>
      (.ok { model := rModel,
             messages := [NewTextMessage ("ai".toList) content],
             finishReason := "stop".toList,
             usage := some usage },
       sent)

/-- Usage metadata of a google stream response (pointer fields as
options, the total count as a plain field), as read by
`google.updateUsage`. -/
structure GoogleUsageMetadata where
  promptTokenCount : Option Int := none
  candidatesTokenCount : Option Int := none
  totalTokenCount : Int := 0
deriving DecidableEq

/-- Model of `google.updateUsage` (google/generate.go). -/
def updateUsage (usage : Usage) (metadata : Option GoogleUsageMetadata) :
    Usage :=
  match metadata with
  | none => usage
  | some m =>
    let u1 := match m.promptTokenCount with
      | some p => { usage with inputTokens := p }
      | none => usage
    let u2 := match m.candidatesTokenCount with
      | some cnt => { u1 with outputTokens := cnt }
      | none => u1
    { u2 with totalTokens := m.totalTokenCount }

/-- Part of a google candidate content (only the text is read). -/
structure GooglePart where
  text : GoStr := []
deriving DecidableEq

/-- Content of a google candidate. -/
structure GoogleContent where
  parts : List GooglePart := []
deriving DecidableEq

/-- Candidate of a google stream response (content may be nil). -/
structure GoogleCandidate where
  content : Option GoogleContent := none
  finishReason : GoStr := []
deriving DecidableEq

/-- Response yielded by the google content stream, as read by
`google.generateContentStream`. -/
structure GoogleResp where
  usageMetadata : Option GoogleUsageMetadata := none
  candidates : List GoogleCandidate := []
deriving DecidableEq

/-- Inner parts loop of `google.generateContentStream`: each nonempty part
text is appended to the content and passed to the streamer, whose return
value the Go code discards. -/
def googlePartsLoop (streamer : Streamer) :
    List GooglePart → GoStr → GoStr × List StreamResponse
  | [], content => (content, [])
  | p :: ps, content =>
    if p.text = [] then googlePartsLoop streamer ps content
    else
      let _dis := streamer (mkTextChunk p.text)
      let r := googlePartsLoop streamer ps (content ++ p.text)
      (r.1, mkTextChunk p.text :: r.2)

/-- Outer loop of `google.generateContentStream` over yielded responses,
threading content, usage, and the finish reason of the last candidate
seen with content. -/
def googleLoop (streamer : Streamer) :
    List GoogleResp → GoStr → Usage → GoStr →
      (GoStr × Usage × GoStr) × List StreamResponse
  | [], content, usage, fr => ((content, usage, fr), [])
  | r :: rs, content, usage, fr =>
    let usage1 := updateUsage usage r.usageMetadata
    match r.candidates with
    | [] => googleLoop streamer rs content usage1 fr
    | cand :: _ =>
      match cand.content with
      | none => googleLoop streamer rs content usage1 fr
      | some ct =>
        let pr := googlePartsLoop streamer ct.parts content
        let rest := googleLoop streamer rs pr.1 usage1 cand.finishReason
        (rest.1, pr.2 ++ rest.2)

/-- Model of `google.generateContentStream` (google/generate.go): iterate
the vendor stream (the responses it yields before terminating); a terminal
`io.EOF` (`streamErr = none`) breaks the loop and yields the aggregated
response whose finish reason converts the last candidate finish reason
seen (initially the genai unspecified constant); any other terminal error
fails the call.  This adapter discards the streamer's error return. -/
def generateContentStream (streamer : Streamer) (rModel : GoStr)
    (events : List GoogleResp) (streamErr : Option GoErr) :
    Except GoErr Response × List StreamResponse :=
  let r := googleLoop streamer events [] {} ("FINISH_REASON_UNSPECIFIED".toList)
  match streamErr with
  | some e => (.error ("generate content stream: ".toList ++ e), r.2)
  | none =>
    (.ok { model := rModel,
           messages := [NewTextMessage ("ai".toList) r.1.1],
           finishReason := googleConvertFinishReason r.1.2.2,
           usage := some r.1.2.1 },
     r.2)

/-- Text deltas of an anthropic event list, written from the C1 claim:
the chunks the callback must receive are exactly these, in order. -/
def anthropicDeltas : List AnthropicEvent → List GoStr
  | [] => []
  | .contentBlockDeltaText t :: es => t :: anthropicDeltas es
  | _ :: es => anthropicDeltas es

/-- Text deltas of an openai chunk list, written from the C1 claim. -/
def openaiDeltas : List OpenAIChunk → List GoStr
  | [] => []
  | ch :: rest =>
    match ch.choices with
    | [] => openaiDeltas rest
    | choice :: _ =>
      if choice.deltaContent = [] then openaiDeltas rest
      else choice.deltaContent :: openaiDeltas rest

/-- Nonempty part texts of a google candidate content, written from the
C1 claim. -/
def googlePartDeltas : List GooglePart → List GoStr
  | [] => []
  | p :: ps =>
    if p.text = [] then googlePartDeltas ps else p.text :: googlePartDeltas ps

/-- Text deltas of a google response list, written from the C1 claim. -/
def googleDeltas : List GoogleResp → List GoStr
  | [] => []
  | r :: rs =>
    match r.candidates with
    | [] => googleDeltas rs
    | cand :: _ =>
      match cand.content with
      | none => googleDeltas rs
      | some ct => googlePartDeltas ct.parts ++ googleDeltas rs

/-- Concatenation of the contents of streamed chunks, in delivery order. -/
def chunkConcat : List StreamResponse → GoStr
  | [] => []
  | c :: cs => c.content ++ chunkConcat cs

/-- Tool parameter of an anthropic request (the `PropertiesJSON()`
projection of the opaque schema payload is modelled as the payload
itself). -/
structure AnthropicToolParam where
  name : GoStr := []
  description : GoStr := []
  inputSchemaProperties : GoStr := []
deriving DecidableEq

/-- Model of `anthropic.MessageNewParams` as populated by
`anthropic.convertChatRequest`; the already-converted vendor messages are
kept abstract (`μ`), exactly as the Go function receives them. -/
structure AnthropicMessageNewParams (μ : Type) where
  model : GoStr := []
  messages : List μ := []
  maxTokens : Int := 0
  temperature : Option ℚ := none
  topP : Option ℚ := none
  stopSequences : List GoStr := []
  tools : List AnthropicToolParam := []
  toolChoiceAny : Bool := false

/-- Model of `anthropic.convertChatRequest` (anthropic/generate.go):
tools and the any-tool choice when tools are present, MaxTokens defaulted
to 2048 when zero, optional temperature and top-p when nonzero, stop
sequences when nonempty. -/
def anthropicConvertChatRequest (r : Request) (messages : List μ) :
    AnthropicMessageNewParams μ :=
  let params0 : AnthropicMessageNewParams μ :=
    { model := r.model, messages := messages }
  let params1 :=
    if r.tools.length > 0 then
      { params0 with
        tools := r.tools.map (fun t =>
          { name := t.name, description := t.description,
            inputSchemaProperties := t.inputSchema }),
        toolChoiceAny := r.mustCallTool }
    else params0
  let params2 :=
    if r.config.maxTokens = 0 then { params1 with maxTokens := 2048 }
    else { params1 with maxTokens := r.config.maxTokens }
  let params3 :=
    if r.config.temperature ≠ 0 then
      { params2 with temperature := some r.config.temperature }
    else params2
  let params4 :=
    if r.config.topP ≠ 0 then { params3 with topP := some r.config.topP }
    else params3
  if r.config.stopWords.length > 0 then
    { params4 with stopSequences := r.config.stopWords }
  else params4

/-- Part of an openai chat message (text or image URL). -/
structure OpenAIChatMessagePart where
  type : GoStr := []
  text : GoStr := []
  imageURL : GoStr := []
deriving DecidableEq

/-- Tool call attached to an openai chat message. -/
structure OpenAIToolCall where
  id : GoStr := []
  name : GoStr := []
  arguments : GoStr := []
deriving DecidableEq

/-- Model of `openai.ChatCompletionMessage` as populated by
`openai.convertChatMessage`. -/
structure OpenAIChatCompletionMessage where
  role : GoStr := []
  content : GoStr := []
  name : GoStr := []
  toolCallID : GoStr := []
  multiContent : List OpenAIChatMessagePart := []
  toolCalls : List OpenAIToolCall := []
deriving DecidableEq

/-- Model of `openai.convertChatRole` (openai/generate.go). -/
def openaiConvertChatRole (role : GoStr) : GoStr :=
  if role = "system".toList then "system".toList
  else if role = "human".toList then "user".toList
  else if role = "ai".toList then "assistant".toList
  else if role = "tool".toList then "tool".toList
  else "user".toList

/-- Model of `openai.convertContentPart` (openai/generate.go). -/
def openaiConvertContentPart (p : ContentPart) : OpenAIChatMessagePart :=
  if p.type = "image".toList then
    { type := "image_url".toList, imageURL := p.dataURL }
  else
    { type := "text".toList, text := p.text }

/-- Model of `openai.convertChatMessage` (openai/generate.go).  The Go
code dereferences the tool-response pointer after `IsToolResponse`; the
unreachable `none` branch returns a bare tool-role message. -/
def openaiConvertChatMessage (msg : Message) : OpenAIChatCompletionMessage :=
  if msg.IsToolResponse then
    match msg.toolResponse with
    | some tr =>
      { role := "tool".toList, content := tr.result, name := tr.name,
        toolCallID := tr.id }
    | none => { role := "tool".toList }
  else
    let parts := msg.content.map openaiConvertContentPart
    let toolcalls :=
      if msg.IsToolCall then
        match msg.toolCall with
        | some tc => [{ id := tc.id, name := tc.name, arguments := tc.arguments }]
        | none => ([] : List OpenAIToolCall)
      else []
    { role := openaiConvertChatRole msg.role, multiContent := parts,
      toolCalls := toolcalls }

/-- Function declaration of an openai tool. -/
structure OpenAITool where
  name : GoStr := []
  description : GoStr := []
  parameters : GoStr := []
deriving DecidableEq

/-- Model of `openai.convertChatTool` (openai/generate.go). -/
def openaiConvertChatTool (t : Tool) : OpenAITool :=
  { name := t.name, description := t.description, parameters := t.inputSchema }

/-- Model of `openai.ChatCompletionRequest` as populated by
`openai.convertChatRequest`; the response format holds the schema payload,
the tool choice the `any`-typed string value. -/
structure OpenAIChatCompletionRequest where
  model : GoStr := []
  messages : List OpenAIChatCompletionMessage := []
  tools : List OpenAITool := []
  maxTokens : Int := 0
  temperature : ℚ := 0
  topP : ℚ := 0
  frequencyPenalty : ℚ := 0
  presencePenalty : ℚ := 0
  stop : List GoStr := []
  responseFormatSchema : Option GoStr := none
  toolChoice : GoStr := []
deriving DecidableEq

/-- Model of `openai.convertChatRequest` (openai/generate.go): converts
messages and tools, copies every config field directly (MaxTokens
included, with no defaulting), sets the response format when a schema is
present and `"required"` tool choice when `MustCallTool` is set. -/
def openaiConvertChatRequest (r : Request) : OpenAIChatCompletionRequest :=
  let msgs := r.messages.map openaiConvertChatMessage
  let tools := r.tools.map openaiConvertChatTool
  let req0 : OpenAIChatCompletionRequest :=
    { model := r.model, messages := msgs, tools := tools }
  let req1 :=
    { req0 with
      maxTokens := r.config.maxTokens,
      temperature := r.config.temperature,
      topP := r.config.topP,
      frequencyPenalty := r.config.frequencyPenalty,
      presencePenalty := r.config.presencePenalty,
      stop := r.config.stopWords }
  let req2 := match r.responseSchema with
    | some sch => { req1 with responseFormatSchema := some sch }
    | none => req1
  if r.mustCallTool then { req2 with toolChoice := "required".toList } else req2

/-- Model of `genai.GenerateContentConfig` as populated by
`google.convertChatConfig` (the tool, tool-config and response-schema
fields set later by `google.convertChatRequest` are not modelled). -/
structure GenerateContentConfig where
  temperature : Option ℚ := none
  maxOutputTokens : Option Int := none
  topP : Option ℚ := none
  presencePenalty : Option ℚ := none
  frequencyPenalty : Option ℚ := none
  stopSequences : List GoStr := []
deriving DecidableEq

/-- Model of `google.convertChatConfig` (google/generate.go): every
zero-valued numeric field is left unset; there is no MaxTokens
defaulting. -/
def convertChatConfig (r : Request) : GenerateContentConfig :=
  let c0 : GenerateContentConfig := {}
  let c1 :=
    if r.config.temperature ≠ 0 then
      { c0 with temperature := some r.config.temperature }
    else c0
  let c2 :=
    if r.config.maxTokens ≠ 0 then
      { c1 with maxOutputTokens := some r.config.maxTokens }
    else c1
  let c3 :=
    if r.config.topP ≠ 0 then { c2 with topP := some r.config.topP } else c2
  let c4 :=
    if r.config.presencePenalty ≠ 0 then
      { c3 with presencePenalty := some r.config.presencePenalty }
    else c3
  let c5 :=
    if r.config.frequencyPenalty ≠ 0 then
      { c4 with frequencyPenalty := some r.config.frequencyPenalty }
    else c4
  if r.config.stopWords.length > 0 then
    { c5 with stopSequences := r.config.stopWords }
  else c5

/-- Request used by the C3 counterexample: `Config.MaxTokens = 0`. -/
def c3req : Request := { model := "gpt-4o-mini".toList }

/-- Errors of the router `gengo.Generate`. -/
inductive RouteErr where
  | modelNotFound (model : GoStr)
  | providerNotFound (provider : GoStr)
deriving DecidableEq

/-- Dispatch decision of the router: which adapter's `Generate` is called,
with the request and the option list it receives. -/
inductive Dispatched (α : Type) where
  | anthropic (req : Request) (opts : α)
  | google (req : Request) (opts : α)
  | openai (req : Request) (opts : α)
deriving DecidableEq

/-- Model of the router `gengo.Generate` (gengo.go): resolve the request
model through the options' catalog (`model not found` when unresolved),
then dispatch on the resolved provider name — `anthropic`, `gemini` or
`openai` — to the matching adapter, passing the request and the whole
option list through unchanged (`provider not found` otherwise).  The
adapter call is represented by the returned `Dispatched` value. -/
def routerGenerate (catalog : ModelCatalog) (req : Request) (opts : α) :
    Except RouteErr (Dispatched α) :=
  match getModel catalog req.model with
  | none => .error (.modelNotFound req.model)
  | some info =>
    if info.provider = "anthropic".toList then .ok (.anthropic req opts)
    else if info.provider = "gemini".toList then .ok (.google req opts)
    else if info.provider = "openai".toList then .ok (.openai req opts)
    else .error (.providerNotFound info.provider)

/-! ## Theorems -/

/-- The separator list spells the string `";base64,"`. -/
theorem bsep_toList : bsep = ";base64,".toList := by decide

/-- The prefix list spells the string `"data:"`. -/
theorem dataColon_toList : dataColon = "data:".toList := by decide

/-- The separator `";base64,"` is unbordered: no nonempty proper prefix of
it is also a suffix. -/
theorem bsep_no_border :
    ∀ k : Fin 8, (k : Nat) ≠ 0 → bsep.take (k : Nat) ≠ bsep.drop (8 - (k : Nat)) := by
  decide

/-- A match of the separator inside `S ++ ";base64," ++ B` that starts
inside a nonempty `S` must lie entirely within `S`: the separator cannot
straddle the boundary because it is unbordered. -/
theorem bsep_prefix_split (S B : List Char) (hS : S ≠ [])
    (h : bsep <+: S ++ (bsep ++ B)) : bsep <+: S := by
  have h8 : bsep.length = 8 := rfl
  rcases le_or_lt bsep.length S.length with hge | hlt
  · have htake := List.prefix_iff_eq_take.mp h
    rw [List.take_append_of_le_length hge] at htake
    exact htake ▸ List.take_prefix _ _
  · exfalso
    have htake := List.prefix_iff_eq_take.mp h
    rw [List.take_append_eq_append_take] at htake
    have hSt : S.take bsep.length = S := List.take_of_length_le (le_of_lt hlt)
    have hk : (bsep ++ B).take (bsep.length - S.length)
        = bsep.take (bsep.length - S.length) :=
      List.take_append_of_le_length (Nat.sub_le _ _)
    rw [hSt, hk] at htake
    have hdrop := congrArg (List.drop S.length) htake
    rw [List.drop_left] at hdrop
    have hSpos : 0 < S.length := List.length_pos.mpr hS
    have hfin : bsep.length - S.length < 8 := by omega
    have hne : bsep.length - S.length ≠ 0 := by omega
    have h8k : 8 - (bsep.length - S.length) = S.length := by omega
    exact bsep_no_border ⟨bsep.length - S.length, hfin⟩ hne (by rw [h8k]; exact hdrop.symm)

/-- A list that the separator prefixes starts with `';'`. -/
theorem bsep_prefix_head (x : Char) (l : List Char) (h : bsep <+: x :: l) :
    x = ';' := by
  rcases h with ⟨t, ht⟩
  simp [bsep] at ht
  exact ht.1.symm

/-- An occurrence of the separator in `X ++ Y` lies in `Y` whenever `X`
contains no `';'`. -/
theorem bsep_infix_append_right (X Y : List Char) (hX : ';' ∉ X)
    (h : bsep <:+: X ++ Y) : bsep <:+: Y := by
  induction X with
  | nil => simpa using h
  | cons x xs ih =>
    rw [List.cons_append, List.infix_cons_iff] at h
    rcases h with hpre | hinf
    · exact absurd (bsep_prefix_head _ _ hpre ▸ List.mem_cons_self x xs) hX
    · exact ih (fun hm => hX (List.mem_cons_of_mem _ hm)) hinf

/-- An occurrence of the separator anywhere forces a `';'`. -/
theorem semi_mem_of_bsep_infix (Z : List Char) (h : bsep <:+: Z) : ';' ∈ Z :=
  List.IsInfix.mem (by decide) h

/-- Skipping exactly the consumed characters returns the split worker to
state zero. -/
theorem goSplitAux_skip (sep x t : List Char) :
    goSplitAux sep (x ++ t) x.length = goSplitAux sep t 0 := by
  induction x with
  | nil => rfl
  | cons c cs ih => exact ih

/-- The split worker never returns an empty list of fields. -/
theorem goSplitAux_nonempty (sep : List Char) :
    ∀ (s : List Char) (k : Nat), goSplitAux sep s k ≠ [] := by
  intro s
  induction s with
  | nil => intro k; simp [goSplitAux]
  | cons c cs ih =>
    intro k
    cases k with
    | succ k => simpa [goSplitAux] using ih k
    | zero =>
      by_cases hp : sep.isPrefixOf (c :: cs)
      · simp [goSplitAux, hp]
      · simp only [goSplitAux, hp, Bool.false_eq_true, if_false]
        cases h : goSplitAux sep cs 0 <;> simp

/-- Splitting a string with no separator occurrence yields the whole
string as the only field. -/
theorem goSplitAux_no_occur (s : List Char) (h : ¬ bsep <:+: s) :
    goSplitAux bsep s 0 = [s] := by
  induction s with
  | nil => rfl
  | cons c cs ih =>
    have hp : bsep.isPrefixOf (c :: cs) = false := by
      rw [Bool.eq_false_iff]
      intro hc
      exact h (( List.isPrefixOf_iff_prefix.mp hc).isInfix)
    have hcs : ¬ bsep <:+: cs := fun hc => h (List.infix_cons hc)
    simp only [goSplitAux, hp, Bool.false_eq_true, if_false]
    rw [ih hcs]

/-- Splitting around a marked separator occurrence: when the separator does
not occur in `A`, the first field is `A` and splitting continues after the
separator. -/
theorem goSplitAux_mid (A B : List Char) (hA : ¬ bsep <:+: A) :
    goSplitAux bsep (A ++ (bsep ++ B)) 0 = A :: goSplitAux bsep B 0 := by
  induction A with
  | nil =>
    have hskip := goSplitAux_skip bsep ['b', 'a', 's', 'e', '6', '4', ','] B
    simp only [List.nil_append]
    show goSplitAux bsep (';' :: (['b', 'a', 's', 'e', '6', '4', ','] ++ B)) 0
      = [] :: goSplitAux bsep B 0
    simp only [goSplitAux]
    rw [if_pos]
    · exact congrArg ([] :: ·) hskip
    · simp [bsep, List.isPrefixOf]
  | cons c cs ih =>
    have hne : (c :: cs) ≠ [] := by simp
    have hp : bsep.isPrefixOf ((c :: cs) ++ (bsep ++ B)) = false := by
      rw [Bool.eq_false_iff]
      intro hc
      exact hA (bsep_prefix_split (c :: cs) B hne
        ( List.isPrefixOf_iff_prefix.mp hc)).isInfix
    have hp2 : bsep.isPrefixOf (c :: (cs ++ (bsep ++ B))) = false := by
      simpa using hp
    have hcs : ¬ bsep <:+: cs := fun hc => hA (List.infix_cons hc)
    show goSplitAux bsep (c :: (cs ++ (bsep ++ B))) 0
      = (c :: cs) :: goSplitAux bsep B 0
    simp only [goSplitAux, hp2, Bool.false_eq_true, if_false]
    rw [ih hcs]

/-- The wrapper agrees with the worker for the nonempty separator. -/
theorem goSplit_bsep (s : List Char) : goSplit bsep s = goSplitAux bsep s 0 := rfl

/-- Every sextet character lies in the base64 alphabet. -/
theorem b64chr_mem (n : Nat) : b64chr n ∈ b64alphabet := by
  unfold b64chr
  rcases Nat.lt_or_ge n b64alphabet.length with h | h
  · rw [List.getD_eq_getElem _ _ h]
    exact List.getElem_mem h
  · rw [List.getD_eq_default _ _ h]
    decide

/-- No character of the base64 alphabet is `';'`, `'='`, CR or LF. -/
theorem b64alphabet_good :
    ∀ c ∈ b64alphabet, c ≠ ';' ∧ c ≠ '=' ∧ c ≠ '\r' ∧ c ≠ '\n' := by
  decide

/-- The sextet table inverts the alphabet table on values below 64. -/
theorem b64val_chr : ∀ n : Fin 64, b64val (b64chr (n : Nat)) = some (n : Nat) := by
  decide

/-- Unbundled form of `b64val_chr`. -/
theorem b64val_chr_lt (n : Nat) (h : n < 64) : b64val (b64chr n) = some n :=
  b64val_chr ⟨n, h⟩

/-- Characters emitted by the base64 encoder are alphabet characters or
padding. -/
theorem base64Encode_mem :
    ∀ (data : List Nat), ∀ c ∈ base64Encode data, c ∈ b64alphabet ∨ c = '=' := by
  intro data
  induction data using base64Encode.induct with
  | case1 => intro c hc; simp [base64Encode] at hc
  | case2 b0 =>
    intro c hc
    simp only [base64Encode, List.mem_cons, List.mem_singleton] at hc
    rcases hc with h | h | h | h
    · exact Or.inl (h ▸ b64chr_mem _)
    · exact Or.inl (h ▸ b64chr_mem _)
    · exact Or.inr h
    · simp at h
      exact Or.inr h
  | case3 b0 b1 =>
    intro c hc
    simp only [base64Encode, List.mem_cons, List.mem_singleton] at hc
    rcases hc with h | h | h | h
    · exact Or.inl (h ▸ b64chr_mem _)
    · exact Or.inl (h ▸ b64chr_mem _)
    · exact Or.inl (h ▸ b64chr_mem _)
    · simp at h
      exact Or.inr h
  | case4 b0 b1 b2 rest ih =>
    intro c hc
    simp only [base64Encode, List.mem_cons] at hc
    rcases hc with h | h | h | h | h
    · exact Or.inl (h ▸ b64chr_mem _)
    · exact Or.inl (h ▸ b64chr_mem _)
    · exact Or.inl (h ▸ b64chr_mem _)
    · exact Or.inl (h ▸ b64chr_mem _)
    · exact ih c h

/-- Sextet characters are never padding. -/
theorem b64chr_ne_pad (n : Nat) : b64chr n ≠ '=' :=
  (b64alphabet_good _ (b64chr_mem n)).2.1

/-- Decoding the four-character groups of an encoded byte list recovers the
bytes. -/
theorem base64DecodeGroups_encode :
    ∀ (data : List Nat), (∀ b ∈ data, b < 256) →
      base64DecodeGroups (base64Encode data) = some data := by
  intro data
  induction data using base64Encode.induct with
  | case1 => intro _; rfl
  | case2 b0 =>
    intro h
    have hb0 : b0 < 256 := h b0 (by simp)
    show base64DecodeGroups
      [b64chr (b0 / 4), b64chr (b0 % 4 * 16), '=', '='] = some [b0]
    simp only [base64DecodeGroups, b64val_chr_lt (b0 / 4) (by omega),
      b64val_chr_lt (b0 % 4 * 16) (by omega)]
    rw [if_pos (by simp)]
    simp only [Option.some.injEq, List.cons.injEq, and_true]
    omega
  | case3 b0 b1 =>
    intro h
    have hb0 : b0 < 256 := h b0 (by simp)
    have hb1 : b1 < 256 := h b1 (by simp)
    show base64DecodeGroups
      [b64chr (b0 / 4), b64chr (b0 % 4 * 16 + b1 / 16), b64chr (b1 % 16 * 4), '=']
        = some [b0, b1]
    simp only [base64DecodeGroups, b64val_chr_lt (b0 / 4) (by omega),
      b64val_chr_lt (b0 % 4 * 16 + b1 / 16) (by omega),
      b64val_chr_lt (b1 % 16 * 4) (by omega)]
    rw [if_neg (by simp [b64chr_ne_pad])]
    rw [if_pos (by simp)]
    simp only [Option.some.injEq, List.cons.injEq, and_true]
    omega
  | case4 b0 b1 b2 rest ih =>
    intro h
    have hb0 : b0 < 256 := h b0 (by simp)
    have hb1 : b1 < 256 := h b1 (by simp)
    have hb2 : b2 < 256 := h b2 (by simp)
    have hrest : ∀ b ∈ rest, b < 256 := fun b hb => h b (by simp [hb])
    show base64DecodeGroups
      (b64chr (b0 / 4) :: b64chr (b0 % 4 * 16 + b1 / 16) ::
        b64chr (b1 % 16 * 4 + b2 / 64) :: b64chr (b2 % 64) ::
          base64Encode rest) = some (b0 :: b1 :: b2 :: rest)
    simp only [base64DecodeGroups, b64val_chr_lt (b0 / 4) (by omega),
      b64val_chr_lt (b0 % 4 * 16 + b1 / 16) (by omega),
      b64val_chr_lt (b1 % 16 * 4 + b2 / 64) (by omega),
      b64val_chr_lt (b2 % 64) (by omega)]
    rw [if_neg (by simp [b64chr_ne_pad])]
    rw [if_neg (by simp [b64chr_ne_pad])]
    rw [ih hrest]
    simp only [Option.some.injEq, List.cons.injEq]
    refine ⟨by omega, by omega, by omega, trivial⟩

/-- The decoder inverts the encoder on byte lists. -/
theorem base64Decode_encode (data : List Nat) (h : ∀ b ∈ data, b < 256) :
    base64Decode (base64Encode data) = some data := by
  unfold base64Decode
  rw [List.filter_eq_self.mpr ?side]
  · exact base64DecodeGroups_encode data h
  case side =>
    intro c hc
    rcases base64Encode_mem data c hc with hmem | hpad
    · rcases b64alphabet_good c hmem with ⟨_, _, hr, hn⟩
      simp [hr, hn]
    · subst hpad
      decide

/-- Counting occurrences across a leading separator: the separator is
unbordered, so the seven positions inside it contribute nothing. -/
theorem specNumOcc_bsep_append (t : List Char) :
    specNumOcc bsep (bsep ++ t) = 1 + specNumOcc bsep t := by
  show specNumOcc bsep
    (';' :: 'b' :: 'a' :: 's' :: 'e' :: '6' :: '4' :: ',' :: t) = _
  simp only [specNumOcc]
  rw [if_pos (by simp [bsep, List.isPrefixOf]),
    if_neg (by simp [bsep, List.isPrefixOf]),
    if_neg (by simp [bsep, List.isPrefixOf]),
    if_neg (by simp [bsep, List.isPrefixOf]),
    if_neg (by simp [bsep, List.isPrefixOf]),
    if_neg (by simp [bsep, List.isPrefixOf]),
    if_neg (by simp [bsep, List.isPrefixOf]),
    if_neg (by simp [bsep, List.isPrefixOf])]
  omega

/-- The split worker produces one more field than there are separator
occurrences. -/
theorem goSplitAux_length :
    ∀ (n : Nat) (s : List Char), s.length ≤ n →
      (goSplitAux bsep s 0).length = 1 + specNumOcc bsep s := by
  intro n
  induction n with
  | zero =>
    intro s hs
    have hnil : s = [] := List.eq_nil_of_length_eq_zero (Nat.le_zero.mp hs)
    subst hnil
    rfl
  | succ n ih =>
    intro s hs
    cases s with
    | nil => rfl
    | cons c cs =>
      by_cases hp : bsep.isPrefixOf (c :: cs) = true
      · obtain ⟨t, ht⟩ := List.isPrefixOf_iff_prefix.mp hp
        rw [← ht]
        have hmid := goSplitAux_mid [] t (by simp [bsep])
        simp only [List.nil_append] at hmid
        rw [hmid, List.length_cons, specNumOcc_bsep_append]
        have hlt : t.length ≤ n := by
          have hlen := congrArg List.length ht
          simp only [List.length_append, List.length_cons] at hlen
          have h8 : bsep.length = 8 := rfl
          have hcs : cs.length ≤ n := by simpa using hs
          omega
        rw [ih t hlt]
        omega
      · have hpf : bsep.isPrefixOf (c :: cs) = false := Bool.eq_false_iff.mpr hp
        have hcs : cs.length ≤ n := by simpa using hs
        have hlen := ih cs hcs
        simp only [goSplitAux, hpf, Bool.false_eq_true, if_false]
        simp only [specNumOcc, hpf, Bool.false_eq_true, if_false]
        cases haux : goSplitAux bsep cs 0 with
        | nil => exact absurd haux (goSplitAux_nonempty bsep cs 0)
        | cons h tl =>
          rw [haux] at hlen
          simp only [List.length_cons] at hlen ⊢
          omega

/-- Containment of the separator is equivalent to a positive occurrence
count. -/
theorem containsSub_bsep_iff :
    ∀ s : List Char, containsSub bsep s = true ↔ 1 ≤ specNumOcc bsep s := by
  intro s
  induction s with
  | nil => simp [containsSub, specNumOcc, bsep]
  | cons c cs ih =>
    simp only [containsSub, specNumOcc, Bool.or_eq_true]
    by_cases hp : bsep.isPrefixOf (c :: cs) = true
    · simp [hp]
    · have hpf : bsep.isPrefixOf (c :: cs) = false := Bool.eq_false_iff.mpr hp
      simp [hpf, ih]

/-- Peeling a non-`';'` character does not change the occurrence count. -/
theorem specNumOcc_cons_ne (c : Char) (cs : List Char) (h : c ≠ ';') :
    specNumOcc bsep (c :: cs) = specNumOcc bsep cs := by
  have hp : bsep.isPrefixOf (c :: cs) = false := by
    rw [Bool.eq_false_iff]
    intro hc
    exact h (bsep_prefix_head c cs ( List.isPrefixOf_iff_prefix.mp hc))
  simp [specNumOcc, hp]

/-- The `"data:"` prefix contains no `';'`, so it does not change the
separator occurrence count. -/
theorem specNumOcc_dataColon (x : List Char) :
    specNumOcc bsep (dataColon ++ x) = specNumOcc bsep x := by
  show specNumOcc bsep ('d' :: 'a' :: 't' :: 'a' :: ':' :: x) = _
  rw [specNumOcc_cons_ne _ _ (by decide), specNumOcc_cons_ne _ _ (by decide),
    specNumOcc_cons_ne _ _ (by decide), specNumOcc_cons_ne _ _ (by decide),
    specNumOcc_cons_ne _ _ (by decide)]

/-- Unfolding of `SplitDataURL` on a string with the `"data:"` prefix. -/
theorem SplitDataURL_of_pre (x : List Char) :
    SplitDataURL (dataColon ++ x) =
      (if containsSub bsep (dataColon ++ x) = true then
        match goSplit bsep x with
        | [p0, p1] => some (p0, p1)
        | _ => none
      else none) := by
  have hpre : dataColon.isPrefixOf (dataColon ++ x) = true :=
    List.isPrefixOf_iff_prefix.mpr (List.prefix_append _ _)
  have htrim : goTrimPrefix dataColon (dataColon ++ x) = x := by
    unfold goTrimPrefix
    rw [if_pos hpre]
    exact List.drop_left dataColon x
  unfold SplitDataURL IsDataURL
  rw [hpre, htrim]
  simp only [Bool.true_and]

/-- C10: `SplitDataURL` succeeds exactly when the string starts with
`"data:"` and contains exactly one occurrence of `";base64,"`; on success
it returns the text strictly between the prefix and the separator as the
MIME type and the text after the separator as the still-encoded payload;
and `IsDataURL` does not guarantee `SplitDataURL` success, witnessed by a
string with two separators. -/
theorem SplitDataURL_spec :
    (∀ s : GoStr, (SplitDataURL s).isSome = true ↔
      (dataColon.isPrefixOf s = true ∧ specNumOcc bsep s = 1)) ∧
    (∀ A B : GoStr, ¬ bsep <:+: A → ¬ bsep <:+: B →
      SplitDataURL (dataColon ++ A ++ (bsep ++ B)) = some (A, B)) ∧
    (IsDataURL ("data:a;base64,b;base64,c".toList) = true ∧
      SplitDataURL ("data:a;base64,b;base64,c".toList) = none) := by
  refine ⟨?_, ?_, by decide, by decide⟩
  · intro s
    constructor
    · intro hsome
      have hd : IsDataURL s = true := by
        by_contra hd
        have hdf : IsDataURL s = false := by simpa using hd
        simp [SplitDataURL, hdf] at hsome
      have hpre : dataColon.isPrefixOf s = true := by
        have hd2 := hd
        simp only [IsDataURL, Bool.and_eq_true] at hd2
        exact hd2.1
      obtain ⟨x, hx⟩ := List.isPrefixOf_iff_prefix.mp hpre
      subst hx
      refine ⟨hpre, ?_⟩
      rw [SplitDataURL_of_pre] at hsome
      have hcont : containsSub bsep (dataColon ++ x) = true := by
        by_contra hc
        have hcf : containsSub bsep (dataColon ++ x) = false := by simpa using hc
        simp [hcf] at hsome
      rw [if_pos hcont] at hsome
      have hlen : (goSplit bsep x).length = 1 + specNumOcc bsep x := by
        rw [goSplit_bsep]
        exact goSplitAux_length x.length x le_rfl
      rw [specNumOcc_dataColon]
      cases hsp : goSplit bsep x with
      | nil => rw [hsp] at hsome; simp at hsome
      | cons a tl =>
        cases tl with
        | nil => rw [hsp] at hsome; simp at hsome
        | cons b tl2 =>
          cases tl2 with
          | nil =>
            rw [hsp] at hlen
            simp only [List.length_cons, List.length_nil] at hlen
            omega
          | cons c3 tl3 => rw [hsp] at hsome; simp at hsome
    · rintro ⟨hpre, hocc⟩
      obtain ⟨x, hx⟩ := List.isPrefixOf_iff_prefix.mp hpre
      subst hx
      have hoccx : specNumOcc bsep x = 1 := by
        rwa [specNumOcc_dataColon] at hocc
      have hcont : containsSub bsep (dataColon ++ x) = true :=
        (containsSub_bsep_iff _).mpr (by rw [specNumOcc_dataColon]; omega)
      rw [SplitDataURL_of_pre, if_pos hcont]
      have hlen : (goSplit bsep x).length = 2 := by
        rw [goSplit_bsep, goSplitAux_length x.length x le_rfl, hoccx]
      obtain ⟨a, b, hab⟩ := List.length_eq_two.mp hlen
      rw [hab]
      simp
  · intro A B hA hB
    have hsplit : goSplit bsep (A ++ (bsep ++ B)) = [A, B] := by
      rw [goSplit_bsep, goSplitAux_mid _ _ hA, goSplitAux_no_occur _ hB]
    have hlen : (goSplit bsep (A ++ (bsep ++ B))).length
        = 1 + specNumOcc bsep (A ++ (bsep ++ B)) := by
      rw [goSplit_bsep]
      exact goSplitAux_length _ _ le_rfl
    rw [hsplit] at hlen
    have hcont : containsSub bsep (dataColon ++ (A ++ (bsep ++ B))) = true := by
      refine (containsSub_bsep_iff _).mpr ?_
      rw [specNumOcc_dataColon]
      simp only [List.length_cons, List.length_nil] at hlen
      omega
    rw [List.append_assoc, SplitDataURL_of_pre, if_pos hcont, hsplit]

/-- C10 witness: the spec's worked example,
`split("data:image/png;base64,iVBORw0KGgo=") == ("image/png", "iVBORw0KGgo=")`. -/
theorem SplitDataURL_spec_witness :
    SplitDataURL ("data:image/png;base64,iVBORw0KGgo=".toList) =
      some ("image/png".toList, "iVBORw0KGgo=".toList) := by
  have heq : ("data:image/png;base64,iVBORw0KGgo=".toList : List Char)
      = dataColon ++ "image/png".toList ++ (bsep ++ "iVBORw0KGgo=".toList) := by
    decide
  rw [heq]
  exact SplitDataURL_spec.2.1 ("image/png".toList) ("iVBORw0KGgo=".toList)
    (by decide) (by decide)

/-- C8 counterexample: the round trip is not universal in the MIME type.
For the MIME type `";base64,"` (any MIME type containing the separator
behaves the same way) the encoded URL contains two separators, so the
decoder's two-part split fails and `DecodeDataURL` returns an error. -/
theorem DecodeDataURL_EncodeDataURL_cex :
    DecodeDataURL (EncodeDataURL (";base64,".toList) []) = none := by
  decide

/-- C8 (amended): for every MIME type that does not contain `";base64,"`
as a substring and every byte sequence, decoding the encoded data URL
succeeds and returns exactly the original bytes and MIME type. -/
theorem DecodeDataURL_EncodeDataURL (mime : GoStr) (data : List Nat)
    (hmime : ¬ bsep <:+: mime) (hdata : ∀ b ∈ data, b < 256) :
    DecodeDataURL (EncodeDataURL mime data) = some (data, mime) := by
  have hA : ¬ bsep <:+: (dataColon ++ mime) := fun h =>
    hmime (bsep_infix_append_right dataColon mime (by decide) h)
  have hB : ¬ bsep <:+: base64Encode data := by
    intro h
    have hsemi := semi_mem_of_bsep_infix _ h
    rcases base64Encode_mem data ';' hsemi with hmem | hpad
    · exact (b64alphabet_good _ hmem).1 rfl
    · exact absurd hpad (by decide)
  have hsplit : goSplit bsep (EncodeDataURL mime data)
      = [dataColon ++ mime, base64Encode data] := by
    have he : EncodeDataURL mime data
        = (dataColon ++ mime) ++ (bsep ++ base64Encode data) := by
      simp [EncodeDataURL, List.append_assoc]
    rw [he, goSplit_bsep, goSplitAux_mid _ _ hA, goSplitAux_no_occur _ hB]
  have hpre : dataColon.isPrefixOf (dataColon ++ mime) = true :=
    List.isPrefixOf_iff_prefix.mpr (List.prefix_append _ _)
  have htrim : goTrimPrefix dataColon (dataColon ++ mime) = mime := by
    unfold goTrimPrefix
    rw [if_pos hpre]
    exact List.drop_left dataColon mime
  have h1 : DecodeDataURL (EncodeDataURL mime data) =
      (if dataColon.isPrefixOf (dataColon ++ mime) = true then
        match base64Decode (base64Encode data) with
        | some d => some (d, goTrimPrefix dataColon (dataColon ++ mime))
        | none => none
      else none) := by
    unfold DecodeDataURL
    rw [hsplit]
  rw [h1, if_pos hpre, base64Decode_encode data hdata]
  show some (data, goTrimPrefix dataColon (dataColon ++ mime)) = some (data, mime)
  rw [htrim]

/-- C8 witness: the spec's worked example, MIME type `text/plain` with the
bytes of `"Hello, world!"`, round-trips. -/
theorem DecodeDataURL_EncodeDataURL_witness :
    DecodeDataURL (EncodeDataURL ("text/plain".toList)
      [72, 101, 108, 108, 111, 44, 32, 119, 111, 114, 108, 100, 33]) =
      some ([72, 101, 108, 108, 111, 44, 32, 119, 111, 114, 108, 100, 33],
        "text/plain".toList) :=
  DecodeDataURL_EncodeDataURL ("text/plain".toList)
    [72, 101, 108, 108, 111, 44, 32, 119, 111, 114, 108, 100, 33]
    (by decide) (by decide)

/-- C4 counterexample: `GetModel` does not try exact matches over the whole
catalog first.  Querying `"q"` returns the first entry `"p/q"` via its
slash-segment match even though a later entry `"q"` matches exactly, so the
claimed "only if no exact match exists" order is false. -/
theorem getModel_not_exact_first :
    getModel c4cat ("q".toList) =
      some { model := "p/q".toList, provider := "A".toList } ∧
    (getModel c4cat ("q".toList)).map ModelInfo.model ≠ some ("q".toList) ∧
    (c4cat.map ModelInfo.model).contains ("q".toList) = true := by
  decide

/-- C4 (amended): `GetModel` scans the catalog in one pass and returns the
first entry that either matches the query exactly or whose identifier
segment between the first and second `/` equals the query; in particular a
catalog entry named `"gemini/gemini-2.0-flash"` is found by querying either
`"gemini/gemini-2.0-flash"` or `"gemini-2.0-flash"`. -/
theorem getModel_first_match :
    (∀ (c : ModelCatalog) (q : GoStr), getModel c q = c.find? (entryMatches q)) ∧
    (getModel [{ model := "gemini/gemini-2.0-flash".toList,
                 provider := "gemini".toList }]
        ("gemini/gemini-2.0-flash".toList) =
      some { model := "gemini/gemini-2.0-flash".toList,
             provider := "gemini".toList }) ∧
    (getModel [{ model := "gemini/gemini-2.0-flash".toList,
                 provider := "gemini".toList }]
        ("gemini-2.0-flash".toList) =
      some { model := "gemini/gemini-2.0-flash".toList,
             provider := "gemini".toList }) := by
  refine ⟨?_, by decide, by decide⟩
  intro c q
  induction c with
  | nil => rfl
  | cons info rest ih =>
    simp only [getModel, List.find?, entryMatches]
    by_cases h1 : info.model = q
    · simp [h1]
    · simp only [h1, if_false]
      have hbeq : (info.model == q) = false := by
        simpa using h1
      cases hsplit : goSplit ['/'] info.model with
      | nil => simp [hbeq, ih]
      | cons a tl =>
        cases tl with
        | nil => simp [hbeq, ih]
        | cons cmp1 tl2 =>
          by_cases h2 : cmp1 = q
          · simp [hbeq, h2]
          · have hbeq2 : (cmp1 == q) = false := by simpa using h2
            simp [hbeq, hbeq2, h2, ih]

/-- C5: `CalculateCost` returns `true` exactly when the model is found; on
success it writes input tokens times input token cost plus output tokens
times output token cost into the usage record's cost field (reasoning,
cache-creation and cached tokens contribute nothing, and no other field
changes); on failure the usage record is returned unchanged. -/
theorem CalculateCost_spec :
    ∀ (c : ModelCatalog) (m : GoStr) (u : Usage),
      ((CalculateCost c m u).1 = (getModel c m).isSome) ∧
      (∀ info, getModel c m = some info →
        (CalculateCost c m u).2 =
          { u with cost := info.inputTokenCost * (u.inputTokens : ℚ)
              + info.outputTokenCost * (u.outputTokens : ℚ) }) ∧
      (getModel c m = none → (CalculateCost c m u).2 = u) := by
  intro c m u
  refine ⟨?_, ?_, ?_⟩
  · cases h : getModel c m <;> simp [CalculateCost, h]
  · intro info h
    simp [CalculateCost, h, calculateCost]
  · intro h
    simp [CalculateCost, h]

/-- C5 witness: on a concrete catalog and usage record (300 input and 300
output tokens), the computed cost is `0.000225`. -/
theorem CalculateCost_spec_witness :
    (CalculateCost [c5info] ("m".toList)
        { inputTokens := 300, outputTokens := 300 }).2 =
      { inputTokens := 300, outputTokens := 300, cost := 9 / 40000 } := by
  have h :=
    (CalculateCost_spec [c5info] ("m".toList)
      { inputTokens := 300, outputTokens := 300 }).2.1 c5info rfl
  rw [h]
  simp only [c5info]
  norm_num

/-- C7: each adapter's finish-reason conversion is a total function;
every vendor value outside the constants that map to a non-`unknown`
reason — in particular every unrecognized value and the vendors'
unspecified constants `"null"` (openai) and `"FINISH_REASON_UNSPECIFIED"`
(google) — maps to `unknown`, and `stop` is only produced from the
vendor's own stop-like constants. -/
theorem convertFinishReason_total :
    (∀ s : GoStr,
      (s ∉ ["end_turn".toList, "stop_sequence".toList, "max_tokens".toList,
          "tool_use".toList] →
        anthropicConvertFinishReason s = FinishReasonUnknown) ∧
      (anthropicConvertFinishReason s = FinishReasonStop →
        s = "end_turn".toList ∨ s = "stop_sequence".toList)) ∧
    (∀ s : GoStr,
      (s ∉ ["stop".toList, "length".toList, "function_call".toList,
          "tool_calls".toList, "content_filter".toList] →
        openaiConvertFinishReason s = FinishReasonUnknown) ∧
      (openaiConvertFinishReason s = FinishReasonStop → s = "stop".toList)) ∧
    (∀ s : GoStr,
      (s ∉ ["STOP".toList, "MAX_TOKENS".toList, "SAFETY".toList,
          "IMAGE_SAFETY".toList, "PROHIBITED_CONTENT".toList,
          "RECITATION".toList, "BLOCKLIST".toList, "SPII".toList,
          "MALFORMED_FUNCTION_CALL".toList] →
        googleConvertFinishReason s = FinishReasonUnknown) ∧
      (googleConvertFinishReason s = FinishReasonStop → s = "STOP".toList)) := by
  refine ⟨fun s => ⟨?_, ?_⟩, fun s => ⟨?_, ?_⟩, fun s => ⟨?_, ?_⟩⟩
  · intro hmem
    unfold anthropicConvertFinishReason
    split_ifs with h1 h2 h3
    · exfalso; rcases h1 with h | h <;> simp [h] at hmem
    · exfalso; simp [h2] at hmem
    · exfalso; simp [h3] at hmem
    · rfl
  · intro hstop
    unfold anthropicConvertFinishReason at hstop
    split_ifs at hstop with h1 h2 h3
    · exact h1
    · exact absurd hstop (by decide)
    · exact absurd hstop (by decide)
    · exact absurd hstop (by decide)
  · intro hmem
    unfold openaiConvertFinishReason
    split_ifs with h1 h2 h3 h4 h5
    · exfalso; simp [h1] at hmem
    · exfalso; simp [h2] at hmem
    · exfalso; rcases h3 with h | h <;> simp [h] at hmem
    · exfalso; simp [h4] at hmem
    · rfl
    · rfl
  · intro hstop
    unfold openaiConvertFinishReason at hstop
    split_ifs at hstop with h1 h2 h3 h4 h5
    · exact h1
    · exact absurd hstop (by decide)
    · exact absurd hstop (by decide)
    · exact absurd hstop (by decide)
    · exact absurd hstop (by decide)
    · exact absurd hstop (by decide)
  · intro hmem
    unfold googleConvertFinishReason
    split_ifs with h1 h2 h3 h4 h5
    · exfalso; simp [h1] at hmem
    · exfalso; simp [h2] at hmem
    · exfalso
      rcases h3 with h | h | h | h | h | h <;> simp [h] at hmem
    · exfalso; simp [h4] at hmem
    · rfl
    · rfl
  · intro hstop
    unfold googleConvertFinishReason at hstop
    split_ifs at hstop with h1 h2 h3 h4 h5
    · exact h1
    · exact absurd hstop (by decide)
    · exact absurd hstop (by decide)
    · exact absurd hstop (by decide)
    · exact absurd hstop (by decide)
    · exact absurd hstop (by decide)

/-- C7 witness: the unrecognized vendor value `"bogus"` maps to `unknown`
under all three adapters, and so do the unspecified constants `"null"`
(openai) and `"FINISH_REASON_UNSPECIFIED"` (google). -/
theorem convertFinishReason_total_witness :
    anthropicConvertFinishReason ("bogus".toList) = FinishReasonUnknown ∧
    openaiConvertFinishReason ("bogus".toList) = FinishReasonUnknown ∧
    googleConvertFinishReason ("bogus".toList) = FinishReasonUnknown ∧
    openaiConvertFinishReason ("null".toList) = FinishReasonUnknown ∧
    googleConvertFinishReason ("FINISH_REASON_UNSPECIFIED".toList) =
      FinishReasonUnknown :=
  ⟨(convertFinishReason_total.1 ("bogus".toList)).1 (by decide),
   (convertFinishReason_total.2.1 ("bogus".toList)).1 (by decide),
   (convertFinishReason_total.2.2 ("bogus".toList)).1 (by decide),
   (convertFinishReason_total.2.1 ("null".toList)).1 (by decide),
   (convertFinishReason_total.2.2 ("FINISH_REASON_UNSPECIFIED".toList)).1
     (by decide)⟩

/-- Unfolding of the router on a resolved model. -/
theorem routerGenerate_some {α : Type} (catalog : ModelCatalog)
    (req : Request) (opts : α) (info : ModelInfo)
    (hm : getModel catalog req.model = some info) :
    routerGenerate catalog req opts =
      (if info.provider = "anthropic".toList then .ok (.anthropic req opts)
      else if info.provider = "gemini".toList then .ok (.google req opts)
      else if info.provider = "openai".toList then .ok (.openai req opts)
      else .error (.providerNotFound info.provider)) := by
  unfold routerGenerate
  rw [hm]

/-- C6: the router fails with the unknown-model error exactly when the
catalog cannot resolve the request's model; when resolution succeeds but
the provider is none of `anthropic`, `gemini`, `openai`, it fails with the
unsupported-provider error; otherwise it dispatches to the matching
adapter, passing the request and the option list through unchanged. -/
theorem routerGenerate_spec :
    ∀ {α : Type} (catalog : ModelCatalog) (req : Request) (opts : α),
      (routerGenerate catalog req opts = .error (.modelNotFound req.model) ↔
        getModel catalog req.model = none) ∧
      (∀ info, getModel catalog req.model = some info →
        (info.provider ∉ ["anthropic".toList, "gemini".toList,
            "openai".toList] →
          routerGenerate catalog req opts =
            .error (.providerNotFound info.provider)) ∧
        (info.provider = "anthropic".toList →
          routerGenerate catalog req opts = .ok (.anthropic req opts)) ∧
        (info.provider = "gemini".toList →
          routerGenerate catalog req opts = .ok (.google req opts)) ∧
        (info.provider = "openai".toList →
          routerGenerate catalog req opts = .ok (.openai req opts))) := by
  intro α catalog req opts
  constructor
  · constructor
    · intro h
      cases hm : getModel catalog req.model with
      | none => rfl
      | some info =>
        rw [routerGenerate_some catalog req opts info hm] at h
        split_ifs at h
        all_goals simp at h
    · intro h
      unfold routerGenerate
      rw [h]
  · intro info hm
    rw [routerGenerate_some catalog req opts info hm]
    refine ⟨?_, ?_, ?_, ?_⟩
    · intro hmem
      split_ifs with h1 h2 h3
      · exfalso; simp [h1] at hmem
      · exfalso; simp [h2] at hmem
      · exfalso; simp [h3] at hmem
      · rfl
    · intro h1
      rw [if_pos h1]
    · intro h2
      rw [if_neg (by rw [h2]; decide), if_pos h2]
    · intro h3
      rw [if_neg (by rw [h3]; decide), if_neg (by rw [h3]; decide),
        if_pos h3]

/-- C6 witness: a request resolving to provider `anthropic` dispatches to
the anthropic adapter with the request and options unchanged. -/
theorem routerGenerate_spec_witness :
    routerGenerate
        [{ model := "claude-3-5-haiku-latest".toList,
           provider := "anthropic".toList }]
        { model := "claude-3-5-haiku-latest".toList } (0 : Nat) =
      .ok (.anthropic { model := "claude-3-5-haiku-latest".toList } 0) :=
  ((routerGenerate_spec
      [{ model := "claude-3-5-haiku-latest".toList,
         provider := "anthropic".toList }]
      { model := "claude-3-5-haiku-latest".toList } (0 : Nat)).2
    { model := "claude-3-5-haiku-latest".toList,
      provider := "anthropic".toList } rfl).2.1 rfl

/-- C3 counterexample: for a request with `Config.MaxTokens = 0`, the
openai vendor request keeps max tokens 0 (not 2048) and the google vendor
config leaves max output tokens unset (not 2048); only the anthropic
adapter applies the 2048 default. -/
theorem maxTokens_defaulting_cex :
    (openaiConvertChatRequest c3req).maxTokens = 0 ∧
    (openaiConvertChatRequest c3req).maxTokens ≠ 2048 ∧
    (convertChatConfig c3req).maxOutputTokens = none := by
  refine ⟨rfl, by decide, rfl⟩

/-- C3 (amended): the anthropic adapter defaults MaxTokens to 2048 when
the unified config's MaxTokens is zero and copies it exactly otherwise;
the openai adapter copies MaxTokens unchanged (zero stays zero, relying on
the vendor default); the google adapter leaves the field unset when zero
and copies it exactly otherwise. -/
theorem maxTokens_defaulting :
    (∀ (μ : Type) (r : Request) (messages : List μ),
      (anthropicConvertChatRequest r messages).maxTokens =
        if r.config.maxTokens = 0 then 2048 else r.config.maxTokens) ∧
    (∀ r : Request,
      (openaiConvertChatRequest r).maxTokens = r.config.maxTokens) ∧
    (∀ r : Request,
      (convertChatConfig r).maxOutputTokens =
        if r.config.maxTokens = 0 then none else some r.config.maxTokens) := by
  refine ⟨?_, ?_, ?_⟩
  · intro μ r messages
    simp only [anthropicConvertChatRequest]
    split_ifs <;> rfl
  · intro r
    simp only [openaiConvertChatRequest]
    cases hrs : r.responseSchema <;> split_ifs <;> rfl
  · intro r
    simp only [convertChatConfig]
    split_ifs <;> first | rfl | (exfalso; omega)

/-- Chunk concatenation distributes over list append. -/
theorem chunkConcat_append :
    ∀ (a b : List StreamResponse),
      chunkConcat (a ++ b) = chunkConcat a ++ chunkConcat b := by
  intro a b
  induction a with
  | nil => rfl
  | cons c cs ih => simp [chunkConcat, ih]

/-- Invariant of the anthropic streaming loop: a successful pass returns
the accumulated content extended by the concatenation of the emitted
chunks, the emitted chunks are exactly the event deltas in order, and the
streamer accepted every emitted chunk. -/
theorem anthropicLoop_ok (streamer : Streamer) :
    ∀ (events : List AnthropicEvent) (content : GoStr) (usage : Usage)
      (c : GoStr) (u : Usage) (sent : List StreamResponse),
      anthropicLoop streamer events content usage = (.ok (c, u), sent) →
      c = content ++ chunkConcat sent ∧
      sent = (anthropicDeltas events).map mkTextChunk ∧
      ∀ chunk ∈ sent, streamer chunk = none := by
  intro events
  induction events with
  | nil =>
    intro content usage c u sent h
    simp only [anthropicLoop, Prod.mk.injEq, Except.ok.injEq] at h
    obtain ⟨⟨hc, hu⟩, hs⟩ := h
    subst hc
    subst hs
    simp [chunkConcat, anthropicDeltas]
  | cons e es ih =>
    intro content usage c u sent h
    cases e with
    | contentBlockDeltaText t =>
      simp only [anthropicLoop] at h
      cases hs : streamer (mkTextChunk t) with
      | some err =>
        rw [hs] at h
        simp at h
      | none =>
        rw [hs] at h
        rcases hr : anthropicLoop streamer es (content ++ t) usage with ⟨res, sent2⟩
        rw [hr] at h
        simp only [Prod.mk.injEq] at h
        obtain ⟨h1, h2⟩ := h
        subst h2
        obtain ⟨ih1, ih2, ih3⟩ :=
          ih (content ++ t) usage c u sent2 (by rw [hr, h1])
        refine ⟨?_, ?_, ?_⟩
        · rw [ih1]
          simp [chunkConcat, mkTextChunk, List.append_assoc]
        · simp [anthropicDeltas, ih2, mkTextChunk]
        · intro chunk hc
          rcases List.mem_cons.mp hc with hch | hmem
          · rw [hch]
            exact hs
          · exact ih3 chunk hmem
    | contentBlockDeltaOther =>
      simp only [anthropicLoop] at h
      obtain ⟨ih1, ih2, ih3⟩ := ih content usage c u sent h
      exact ⟨ih1, by simp [anthropicDeltas, ih2], ih3⟩
    | messageStart it =>
      simp only [anthropicLoop] at h
      obtain ⟨ih1, ih2, ih3⟩ := ih content _ c u sent h
      exact ⟨ih1, by simp [anthropicDeltas, ih2], ih3⟩
    | messageDelta ot =>
      simp only [anthropicLoop] at h
      obtain ⟨ih1, ih2, ih3⟩ := ih content _ c u sent h
      exact ⟨ih1, by simp [anthropicDeltas, ih2], ih3⟩
    | other =>
      simp only [anthropicLoop] at h
      obtain ⟨ih1, ih2, ih3⟩ := ih content usage c u sent h
      exact ⟨ih1, by simp [anthropicDeltas, ih2], ih3⟩

/-- Invariant of the openai streaming loop, as for the anthropic loop. -/
theorem openaiLoop_ok (streamer : Streamer) :
    ∀ (chunks : List OpenAIChunk) (content : GoStr) (usage : Usage)
      (c : GoStr) (u : Usage) (sent : List StreamResponse),
      openaiLoop streamer chunks content usage = (.ok (c, u), sent) →
      c = content ++ chunkConcat sent ∧
      sent = (openaiDeltas chunks).map mkTextChunk ∧
      ∀ chunk ∈ sent, streamer chunk = none := by
  intro chunks
  induction chunks with
  | nil =>
    intro content usage c u sent h
    simp only [openaiLoop, Prod.mk.injEq, Except.ok.injEq] at h
    obtain ⟨⟨hc, hu⟩, hs⟩ := h
    subst hc
    subst hs
    simp [chunkConcat, openaiDeltas]
  | cons ch rest ih =>
    intro content usage c u sent h
    simp only [openaiLoop] at h
    split at h
    next hch =>
      obtain ⟨ih1, ih2, ih3⟩ := ih content _ c u sent h
      exact ⟨ih1, by simp [openaiDeltas, hch, ih2], ih3⟩
    next choice tl hch =>
      split at h
      next hd =>
        obtain ⟨ih1, ih2, ih3⟩ := ih content _ c u sent h
        exact ⟨ih1, by simp [openaiDeltas, hch, hd, ih2], ih3⟩
      next hd =>
        cases hs : streamer (mkTextChunk choice.deltaContent) with
        | some err =>
          rw [hs] at h
          simp at h
        | none =>
          rw [hs] at h
          rcases hr : openaiLoop streamer rest (content ++ choice.deltaContent)
              (match ch.usage with | some uu => chatUsage uu | none => usage)
            with ⟨res, sent2⟩
          rw [hr] at h
          simp only [Prod.mk.injEq] at h
          obtain ⟨h1, h2⟩ := h
          subst h2
          obtain ⟨ih1, ih2, ih3⟩ :=
            ih (content ++ choice.deltaContent) _ c u sent2 (by rw [hr, h1])
          refine ⟨?_, ?_, ?_⟩
          · rw [ih1]
            simp [chunkConcat, mkTextChunk, List.append_assoc]
          · simp [openaiDeltas, hch, hd, ih2, mkTextChunk]
          · intro chunk hc
            rcases List.mem_cons.mp hc with hcc | hmem
            · rw [hcc]
              exact hs
            · exact ih3 chunk hmem

/-- Invariant of the google parts loop: the returned content extends the
accumulator by the emitted chunk contents, and the emitted chunks are the
nonempty part texts in order. -/
theorem googlePartsLoop_spec (streamer : Streamer) :
    ∀ (parts : List GooglePart) (content : GoStr),
      (googlePartsLoop streamer parts content).1 =
        content ++ chunkConcat (googlePartsLoop streamer parts content).2 ∧
      (googlePartsLoop streamer parts content).2 =
        (googlePartDeltas parts).map mkTextChunk := by
  intro parts
  induction parts with
  | nil =>
    intro content
    simp [googlePartsLoop, googlePartDeltas, chunkConcat]
  | cons p ps ih =>
    intro content
    by_cases hp : p.text = []
    · simp only [googlePartsLoop, googlePartDeltas, if_pos hp]
      exact ih content
    · simp only [googlePartsLoop, googlePartDeltas, if_neg hp]
      obtain ⟨ih1, ih2⟩ := ih (content ++ p.text)
      constructor
      · rw [ih1]
        simp [chunkConcat, mkTextChunk, List.append_assoc]
      · simp [ih2, mkTextChunk]

/-- Invariant of the google outer streaming loop. -/
theorem googleLoop_spec (streamer : Streamer) :
    ∀ (events : List GoogleResp) (content : GoStr) (usage : Usage) (fr : GoStr),
      (googleLoop streamer events content usage fr).1.1 =
        content ++ chunkConcat (googleLoop streamer events content usage fr).2 ∧
      (googleLoop streamer events content usage fr).2 =
        (googleDeltas events).map mkTextChunk := by
  intro events
  induction events with
  | nil =>
    intro content usage fr
    simp [googleLoop, googleDeltas, chunkConcat]
  | cons r rs ih =>
    intro content usage fr
    cases hc : r.candidates with
    | nil =>
      simp only [googleLoop, googleDeltas, hc]
      exact ih content (updateUsage usage r.usageMetadata) fr
    | cons cand rest2 =>
      cases hcc : cand.content with
      | none =>
        simp only [googleLoop, googleDeltas, hc, hcc]
        exact ih content (updateUsage usage r.usageMetadata) fr
      | some ct =>
        simp only [googleLoop, googleDeltas, hc, hcc]
        obtain ⟨hp1, hp2⟩ := googlePartsLoop_spec streamer ct.parts content
        obtain ⟨ih1, ih2⟩ := ih (googlePartsLoop streamer ct.parts content).1
          (updateUsage usage r.usageMetadata) cand.finishReason
        constructor
        · rw [ih1, hp1, chunkConcat_append, List.append_assoc]
        · rw [hp2, ih2, List.map_append]

/-- C1: for each adapter's streaming path, a returned Response holds a
single message whose content is exactly the concatenation of the chunk
contents passed to the Streamer callback, in delivery order, and those
chunks are exactly the per-event delta texts (type `"text"`, one event's
delta each, never cumulative). -/
theorem streaming_concat :
    (∀ (streamer : Streamer) (events : List AnthropicEvent)
      (streamErr : Option GoErr) (resp : Response) (sent : List StreamResponse),
      handleStreaming streamer events streamErr = (.ok resp, sent) →
      resp.messages = [NewTextMessage ("ai".toList) (chunkConcat sent)] ∧
      sent = (anthropicDeltas events).map mkTextChunk) ∧
    (∀ (streamer : Streamer) (rModel : GoStr) (chunks : List OpenAIChunk)
      (recvErr : Option GoErr) (resp : Response) (sent : List StreamResponse),
      chatCompletionStream streamer rModel chunks recvErr = (.ok resp, sent) →
      resp.messages = [NewTextMessage ("ai".toList) (chunkConcat sent)] ∧
      sent = (openaiDeltas chunks).map mkTextChunk) ∧
    (∀ (streamer : Streamer) (rModel : GoStr) (events : List GoogleResp)
      (streamErr : Option GoErr) (resp : Response) (sent : List StreamResponse),
      generateContentStream streamer rModel events streamErr = (.ok resp, sent) →
      resp.messages = [NewTextMessage ("ai".toList) (chunkConcat sent)] ∧
      sent = (googleDeltas events).map mkTextChunk) := by
  refine ⟨?_, ?_, ?_⟩
  · intro streamer events streamErr resp sent h
    unfold handleStreaming at h
    rcases hl : anthropicLoop streamer events [] {} with ⟨res, sent2⟩
    rw [hl] at h
    cases res with
    | error e => simp at h
    | ok cu =>
      rcases cu with ⟨content, usage⟩
      cases streamErr with
      | some e => simp at h
      | none =>
        simp only [Prod.mk.injEq, Except.ok.injEq] at h
        obtain ⟨h1, h2⟩ := h
        subst h2
        obtain ⟨hl1, hl2, _⟩ := anthropicLoop_ok streamer events [] {}
          content usage sent2 hl
        rw [← h1]
        simp only [List.nil_append] at hl1
        rw [hl1]
        exact ⟨rfl, hl2⟩
  · intro streamer rModel chunks recvErr resp sent h
    unfold chatCompletionStream at h
    rcases hl : openaiLoop streamer chunks [] {} with ⟨res, sent2⟩
    rw [hl] at h
    cases res with
    | error e => simp at h
    | ok cu =>
      rcases cu with ⟨content, usage⟩
      cases recvErr with
      | some e => simp at h
      | none =>
        simp only [Prod.mk.injEq, Except.ok.injEq] at h
        obtain ⟨h1, h2⟩ := h
        subst h2
        obtain ⟨hl1, hl2, _⟩ := openaiLoop_ok streamer chunks [] {}
          content usage sent2 hl
        rw [← h1]
        simp only [List.nil_append] at hl1
        rw [hl1]
        exact ⟨rfl, hl2⟩
  · intro streamer rModel events streamErr resp sent h
    unfold generateContentStream at h
    cases streamErr with
    | some e => simp at h
    | none =>
      simp only [Prod.mk.injEq, Except.ok.injEq] at h
      obtain ⟨h1, h2⟩ := h
      subst h2
      obtain ⟨hg1, hg2⟩ := googleLoop_spec streamer events [] {}
        ("FINISH_REASON_UNSPECIFIED".toList)
      rw [← h1]
      simp only [List.nil_append] at hg1
      rw [hg1]
      exact ⟨rfl, hg2⟩

/-- C1 witness: a concrete anthropic streaming run over the deltas `"He"`
and `"llo"` yields the sole message `"Hello"`, the concatenation of the
two delivered chunks. -/
theorem streaming_concat_witness :
    (Response.mk [] ("stop".toList)
      [NewTextMessage ("ai".toList) ("Hello".toList)] (some {})).messages =
      [NewTextMessage ("ai".toList)
        (chunkConcat [mkTextChunk ("He".toList), mkTextChunk ("llo".toList)])] ∧
    [mkTextChunk ("He".toList), mkTextChunk ("llo".toList)] =
      (anthropicDeltas [.contentBlockDeltaText ("He".toList),
        .contentBlockDeltaText ("llo".toList)]).map mkTextChunk :=
  streaming_concat.1 (fun _ => none)
    [.contentBlockDeltaText ("He".toList), .contentBlockDeltaText ("llo".toList)]
    none
    (Response.mk [] ("stop".toList)
      [NewTextMessage ("ai".toList) ("Hello".toList)] (some {}))
    [mkTextChunk ("He".toList), mkTextChunk ("llo".toList)]
    rfl

/-- C2 counterexample: the google streaming path does not default the
finish reason to `stop`: a stream whose last candidate carries
`MAX_TOKENS` yields a Response with finish reason `max_tokens`. -/
theorem streaming_finishReason_stop_cex :
    ((generateContentStream (fun _ => none) ("gemini-2.0-flash".toList)
        [{ candidates := [{ content := some { parts := [{ text := "hi".toList }] },
                            finishReason := "MAX_TOKENS".toList }] }]
        none).1.toOption.map Response.finishReason) =
      some FinishReasonMaxTokens ∧
    FinishReasonMaxTokens ≠ FinishReasonStop := by
  decide

/-- C2 (amended): the anthropic and openai streaming paths return finish
reason `stop` on every successful stream exhaustion, regardless of vendor
event values; the google streaming path instead converts the finish
reason of the last candidate seen with content (see the
counterexample). -/
theorem streaming_finishReason_stop :
    (∀ (streamer : Streamer) (events : List AnthropicEvent)
      (streamErr : Option GoErr) (resp : Response) (sent : List StreamResponse),
      handleStreaming streamer events streamErr = (.ok resp, sent) →
      resp.finishReason = FinishReasonStop) ∧
    (∀ (streamer : Streamer) (rModel : GoStr) (chunks : List OpenAIChunk)
      (recvErr : Option GoErr) (resp : Response) (sent : List StreamResponse),
      chatCompletionStream streamer rModel chunks recvErr = (.ok resp, sent) →
      resp.finishReason = FinishReasonStop) := by
  constructor
  · intro streamer events streamErr resp sent h
    unfold handleStreaming at h
    rcases hl : anthropicLoop streamer events [] {} with ⟨res, sent2⟩
    rw [hl] at h
    cases res with
    | error e => simp at h
    | ok cu =>
      rcases cu with ⟨content, usage⟩
      cases streamErr with
      | some e => simp at h
      | none =>
        simp only [Prod.mk.injEq, Except.ok.injEq] at h
        obtain ⟨h1, _⟩ := h
        rw [← h1]
        rfl
  · intro streamer rModel chunks recvErr resp sent h
    unfold chatCompletionStream at h
    rcases hl : openaiLoop streamer chunks [] {} with ⟨res, sent2⟩
    rw [hl] at h
    cases res with
    | error e => simp at h
    | ok cu =>
      rcases cu with ⟨content, usage⟩
      cases recvErr with
      | some e => simp at h
      | none =>
        simp only [Prod.mk.injEq, Except.ok.injEq] at h
        obtain ⟨h1, _⟩ := h
        rw [← h1]
        rfl

/-- C2 witness: a concrete anthropic streaming run returns finish reason
`stop`. -/
theorem streaming_finishReason_stop_witness :
    (Response.mk [] ("stop".toList)
      [NewTextMessage ("ai".toList) ("hi".toList)] (some {})).finishReason =
      FinishReasonStop :=
  streaming_finishReason_stop.1 (fun _ => none)
    [.contentBlockDeltaText ("hi".toList)] none
    (Response.mk [] ("stop".toList)
      [NewTextMessage ("ai".toList) ("hi".toList)] (some {}))
    [mkTextChunk ("hi".toList)]
    rfl

/-- C9 counterexample: the google streaming path ignores the Streamer
callback's error: with a callback that always fails, the call still
returns a Response built from the consumed chunk (which was delivered to
the failing callback). -/
theorem streaming_errors_abort_cex :
    ((generateContentStream (fun _ => some ("cb failed".toList)) ("m".toList)
        [{ candidates := [{ content := some { parts := [{ text := "hi".toList }] } }] }]
        none).1.toOption).isSome = true ∧
    (generateContentStream (fun _ => some ("cb failed".toList)) ("m".toList)
        [{ candidates := [{ content := some { parts := [{ text := "hi".toList }] } }] }]
        none).2 = [mkTextChunk ("hi".toList)] := by
  decide

/-- C9 (amended): for the anthropic and openai streaming paths, a
returned Response implies that the vendor stream terminated cleanly and
that the callback accepted every delivered chunk — equivalently, a
callback failure or a stream error yields an error and no partial
Response; the google streaming path aborts on stream errors but discards
callback failures (see the counterexample). -/
theorem streaming_errors_abort :
    (∀ (streamer : Streamer) (events : List AnthropicEvent)
      (streamErr : Option GoErr) (resp : Response) (sent : List StreamResponse),
      handleStreaming streamer events streamErr = (.ok resp, sent) →
      streamErr = none ∧ ∀ chunk ∈ sent, streamer chunk = none) ∧
    (∀ (streamer : Streamer) (rModel : GoStr) (chunks : List OpenAIChunk)
      (recvErr : Option GoErr) (resp : Response) (sent : List StreamResponse),
      chatCompletionStream streamer rModel chunks recvErr = (.ok resp, sent) →
      recvErr = none ∧ ∀ chunk ∈ sent, streamer chunk = none) ∧
    (∀ (streamer : Streamer) (rModel : GoStr) (events : List GoogleResp)
      (e : GoErr),
      (generateContentStream streamer rModel events (some e)).1 =
        .error ("generate content stream: ".toList ++ e)) := by
  refine ⟨?_, ?_, ?_⟩
  · intro streamer events streamErr resp sent h
    unfold handleStreaming at h
    rcases hl : anthropicLoop streamer events [] {} with ⟨res, sent2⟩
    rw [hl] at h
    cases res with
    | error e => simp at h
    | ok cu =>
      rcases cu with ⟨content, usage⟩
      cases streamErr with
      | some e => simp at h
      | none =>
        simp only [Prod.mk.injEq, Except.ok.injEq] at h
        obtain ⟨_, h2⟩ := h
        subst h2
        exact ⟨rfl, (anthropicLoop_ok streamer events [] {}
          content usage sent2 hl).2.2⟩
  · intro streamer rModel chunks recvErr resp sent h
    unfold chatCompletionStream at h
    rcases hl : openaiLoop streamer chunks [] {} with ⟨res, sent2⟩
    rw [hl] at h
    cases res with
    | error e => simp at h
    | ok cu =>
      rcases cu with ⟨content, usage⟩
      cases recvErr with
      | some e => simp at h
      | none =>
        simp only [Prod.mk.injEq, Except.ok.injEq] at h
        obtain ⟨_, h2⟩ := h
        subst h2
        exact ⟨rfl, (openaiLoop_ok streamer chunks [] {}
          content usage sent2 hl).2.2⟩
  · intro streamer rModel events e
    rfl

/-- C9 witness: a concrete successful anthropic streaming run implies a
clean stream termination and a callback that accepted its chunk. -/
theorem streaming_errors_abort_witness :
    (none : Option GoErr) = none ∧
    ∀ chunk ∈ [mkTextChunk ("x".toList)],
      (fun _ => none : Streamer) chunk = none :=
  streaming_errors_abort.1 (fun _ => none)
    [.contentBlockDeltaText ("x".toList)] none
    (Response.mk [] ("stop".toList)
      [NewTextMessage ("ai".toList) ("x".toList)] (some {}))
    [mkTextChunk ("x".toList)]
    rfl

end Gengo
